import Mathlib

/-!
  Shallow embedding of the chat-message reducer in
  `src/modules/client/services/useWebSocket.ts` (the `useWebSocket` hook):
  the message data model, the `onmessage` frame handler with its
  `applyStreamChunk` / `applyEndOfTurn` helpers, the guarded `sendMessage`,
  and `reset`, together with the event-sequence semantics used to state
  reachability properties of the message list.
-/

namespace LangGraphReact

/-- `ChatUser` from useWebSocket.ts: `"User" | "Bot"`. -/
inductive ChatUser where
  | User
  | Bot
deriving DecidableEq, Repr

/-- `ChatMsg` from useWebSocket.ts: `{ user; msg; streaming? }`.  The
optional `streaming?: boolean` is modelled as a `Bool` where an absent
field is `false` (it is only ever read through truthiness tests). -/
structure ChatMsg where
  user : ChatUser
  msg : String
  streaming : Bool
deriving DecidableEq, Repr

/-- The seed Bot welcome message the list is initialised (and reset) to. -/
def seedMsg : ChatMsg :=
  { user := ChatUser.Bot, msg := "Welcome! How can I be of service today?", streaming := false }

/-- Decoded JSON values, as produced by `JSON.parse`: object fields keep
their enumeration order, numbers here are the integers the protocol
actually carries. -/
inductive Json where
  | null
  | bool (b : Bool)
  | num (n : Int)
  | str (s : String)
  | arr (xs : List Json)
  | obj (fields : List (String × Json))

/-- One hexadecimal digit. -/
def hexDigit (n : Nat) : Char :=
  if n < 10 then Char.ofNat (48 + n) else Char.ofNat (87 + n)

/-- Four-digit hexadecimal rendering, as in a JSON `\uXXXX` escape. -/
def hex4 (n : Nat) : String :=
  String.mk [hexDigit (n / 4096 % 16), hexDigit (n / 256 % 16),
             hexDigit (n / 16 % 16), hexDigit (n % 16)]

/-- `JSON.stringify` escaping of a single character inside a string. -/
def escapeChar (c : Char) : String :=
  if c = '"' then "\\\""
  else if c = '\\' then "\\\\"
  else if c = '\x08' then "\\b"
  else if c = '\x0c' then "\\f"
  else if c = '\n' then "\\n"
  else if c = '\r' then "\\r"
  else if c = '\t' then "\\t"
  else if c.toNat < 32 then "\\u" ++ hex4 c.toNat
  else String.singleton c

/-- `JSON.stringify` rendering of a string body (without the quotes). -/
def escapeBody (s : String) : String :=
  String.join (s.toList.map escapeChar)

mutual

/-- `JSON.stringify`: compact serialization, no added whitespace. -/
def serialize : Json → String
  | Json.null => "null"
  | Json.bool true => "true"
  | Json.bool false => "false"
  | Json.num n => toString n
  | Json.str s => "\"" ++ escapeBody s ++ "\""
  | Json.arr xs => "[" ++ serializeItems xs ++ "]"
  | Json.obj fields => "\x7b" ++ serializeFields fields ++ "\x7d"

/-- Comma-joined array elements of `JSON.stringify`. -/
def serializeItems : List Json → String
  | [] => ""
  | [x] => serialize x
  | x :: y :: rest => serialize x ++ "," ++ serializeItems (y :: rest)

/-- Comma-joined `"key":value` object fields of `JSON.stringify`. -/
def serializeFields : List (String × Json) → String
  | [] => ""
  | [f] => "\"" ++ escapeBody f.1 ++ "\":" ++ serialize f.2
  | f :: g :: rest =>
      "\"" ++ escapeBody f.1 ++ "\":" ++ serialize f.2 ++ "," ++ serializeFields (g :: rest)

end

/-- The guard `last && last.user === "Bot" && last.streaming` computed by
`applyStreamChunk` (and reused verbatim by `applyEndOfTurn`): is the
trailing list entry an open streaming Bot bubble? -/
def lastIsStreamingBot (prev : List ChatMsg) : Bool :=
  match prev.getLast? with
  | some last => last.user == ChatUser.Bot && last.streaming
  | none => false

/-- `applyStreamChunk` from useWebSocket.ts: start a new streaming Bot
bubble when there is no open one, otherwise append the chunk to the text
of the trailing streaming bubble. -/
def applyStreamChunk (prev : List ChatMsg) (chunk : String) : List ChatMsg :=
  match prev.getLast? with
  | some last =>
      if last.user == ChatUser.Bot && last.streaming then
        prev.dropLast ++ [{ last with msg := last.msg ++ chunk }]
      else
        prev ++ [{ user := ChatUser.Bot, msg := chunk, streaming := true }]
  | none => prev ++ [{ user := ChatUser.Bot, msg := chunk, streaming := true }]

/-- `applyEndOfTurn` from useWebSocket.ts: close the trailing streaming
Bot bubble if there is one, else do nothing. -/
def applyEndOfTurn (prev : List ChatMsg) : List ChatMsg :=
  match prev.getLast? with
  | some last =>
      if last.user == ChatUser.Bot && last.streaming then
        prev.dropLast ++ [{ last with streaming := false }]
      else prev
  | none => prev

/-- The `obj.on_chat_model_stream` guard of the stream-chunk path: the
value under the key, when it is a string of positive length. -/
def streamChunkOf (fields : List (String × Json)) : Option String :=
  match fields.lookup "on_chat_model_stream" with
  | some (Json.str s) => if s.length > 0 then some s else none
  | _ => none

/-- The `obj.on_chat_model_end === true` guard of the end-of-turn path. -/
def isEndOfTurn (fields : List (String × Json)) : Bool :=
  match fields.lookup "on_chat_model_end" with
  | some (Json.bool true) => true
  | _ => false

/-- `Object.keys(obj).filter(k => k !== "on_chat_model_stream" && k !==
"on_chat_model_end")` from the generic-signal path. -/
def payloadKeys (fields : List (String × Json)) : List String :=
  (fields.map Prod.fst).filter
    (fun k => k != "on_chat_model_stream" && k != "on_chat_model_end")

/-- The record view of a decoded JSON array: JavaScript's
`typeof parsed !== "object"` guard lets arrays through, and the handler
then reads them as objects whose enumerable own keys are the decimal
element indices, in ascending order. -/
def arrayFields (xs : List Json) : List (String × Json) :=
  xs.enum.map (fun p => (toString p.1, p.2))

/-- The decoded values passing `parsed !== null && typeof parsed ===
"object"`, read as the keyed record the handler indexes into: an object
keeps its own fields, an array contributes its index-keyed elements;
`null` and primitives fail the guard. -/
def jsObjFields : Json → Option (List (String × Json))
  | Json.obj fields => some fields
  | Json.arr xs => some (arrayFields xs)
  | _ => none

/-- One inbound socket frame, after the transport and `JSON.parse`
boundary of `socket.onmessage`: a non-text frame, a text frame that fails
JSON parsing (with its raw text), or a successfully decoded value. -/
inductive Inbound where
  | binary
  | badJson (raw : String)
  | parsed (j : Json)

/-- The body of `socket.onmessage` after the object guard, acting on the
record view of the decoded value: the stream-chunk, end-of-turn and
generic-signal paths are tried in that order. -/
def handleObjFrame (prev : List ChatMsg) (fields : List (String × Json)) : List ChatMsg :=
  match streamChunkOf fields with
  | some chunk => applyStreamChunk prev chunk
  | none =>
      if isEndOfTurn fields then applyEndOfTurn prev
      else
        match payloadKeys fields with
        | [] => prev
        | k :: _ =>
            prev ++ [{ user := ChatUser.Bot,
                       msg := "🔔 " ++ k ++ ": " ++
                         serialize ((fields.lookup k).getD Json.null),
                       streaming := false }]

/-- `socket.onmessage` from useWebSocket.ts as a pure reducer on the
message list: plain-text fallback appends a Bot message verbatim; `null`
and primitive values are dropped by the `typeof` guard; objects and
arrays — both pass that guard — are handled through their record view. -/
def handleFrame (prev : List ChatMsg) (f : Inbound) : List ChatMsg :=
  match f with
  | Inbound.binary => prev
  | Inbound.badJson raw => prev ++ [{ user := ChatUser.Bot, msg := raw, streaming := false }]
  | Inbound.parsed j =>
      match jsObjFields j with
      | some fields => handleObjFrame prev fields
      | none => prev

/-- The WhiteSpace ∪ LineTerminator set trimmed by JavaScript
`String.prototype.trim`. -/
def isJsWhitespace (c : Char) : Bool :=
  [0x9, 0xA, 0xB, 0xC, 0xD, 0x20, 0xA0, 0x1680,
   0x2000, 0x2001, 0x2002, 0x2003, 0x2004, 0x2005, 0x2006, 0x2007,
   0x2008, 0x2009, 0x200A, 0x2028, 0x2029, 0x202F, 0x205F, 0x3000,
   0xFEFF].contains c.toNat

/-- JavaScript `text.trim()`: drop leading and trailing whitespace. -/
def jsTrim (s : String) : String :=
  String.mk (((s.toList.dropWhile isJsWhitespace).reverse.dropWhile isJsWhitespace).reverse)

/-- `WebSocket.readyState` values; `sendMessage` transmits only on `OPEN`. -/
inductive ReadyState where
  | CONNECTING
  | OPEN
  | CLOSING
  | CLOSED
deriving DecidableEq, Repr

/-- `sendMessage` from useWebSocket.ts: trim the input, silently drop an
empty result or a non-open socket (`!ws || ws.readyState !== OPEN`);
otherwise append the trimmed User message and transmit
`{uuid, message: t}`.  Returns the next list and the transmitted frame,
if any.  `ws = none` models a null socket handle. -/
def sendMessage (uuid : String) (ws : Option ReadyState) (prev : List ChatMsg)
    (text : String) : List ChatMsg × Option Json :=
  let t := jsTrim text
  if t = "" then (prev, none)
  else if ws = some ReadyState.OPEN then
    (prev ++ [{ user := ChatUser.User, msg := t, streaming := false }],
     some (Json.obj [("uuid", Json.str uuid), ("message", Json.str t)]))
  else (prev, none)

/-- `reset` from useWebSocket.ts: reinitialise the list to the seed. -/
def resetMessages : List ChatMsg := [seedMsg]

/-- One external event acting on the message list: a user submit (with
the socket handle state it sees), an inbound frame, or a reset. -/
inductive Event where
  | submit (ws : Option ReadyState) (text : String)
  | frame (f : Inbound)
  | reset

/-- The effect of one event on the message list. -/
def step (uuid : String) (prev : List ChatMsg) (e : Event) : List ChatMsg :=
  match e with
  | Event.submit ws text => (sendMessage uuid ws prev text).1
  | Event.frame f => handleFrame prev f
  | Event.reset => resetMessages

/-- The message list after folding a sequence of events over the seed. -/
def run (uuid : String) (es : List Event) : List ChatMsg :=
  es.foldl (step uuid) [seedMsg]

/-- Number of messages flagged as streaming. -/
def streamingCount (l : List ChatMsg) : Nat :=
  (l.filter (fun m => m.streaming)).length

/-- Whether the trailing message is flagged as streaming. -/
def tailStreaming (l : List ChatMsg) : Bool :=
  match l.getLast? with
  | some m => m.streaming
  | none => false

/-- The wire shape of a fragment event: one `on_chat_model_stream` key. -/
def fragFrame (s : String) : Inbound :=
  Inbound.parsed (Json.obj [("on_chat_model_stream", Json.str s)])

/-- The wire shape of a turn-completion signal. -/
def endFrame : Inbound :=
  Inbound.parsed (Json.obj [("on_chat_model_end", Json.bool true)])

/-- Events that append an out-of-band message when they fire: a user
submit, a plain-text fallback, or a decoded frame (object or array) whose
record view takes the generic-signal path with a non-empty
payload-key list. -/
def appendsOutOfBand : Event → Prop
  | Event.submit _ _ => True
  | Event.frame Inbound.binary => False
  | Event.frame (Inbound.badJson _) => True
  | Event.frame (Inbound.parsed j) =>
      match jsObjFields j with
      | some fields =>
          streamChunkOf fields = none ∧ isEndOfTurn fields = false ∧ payloadKeys fields ≠ []
      | none => False
  | Event.reset => False

/-- An event interrupts an open streaming bubble when the trailing message
is still streaming and the event appends an out-of-band message. -/
def interrupts (prev : List ChatMsg) (e : Event) : Prop :=
  tailStreaming prev = true ∧ appendsOutOfBand e

/-- Message lists reachable from the seed by event sequences in which no
user submit, plain-text fallback, or generic signal arrives while a
streaming bubble is open. -/
inductive ReachableSafe (uuid : String) : List ChatMsg → Prop where
  | seed : ReachableSafe uuid [seedMsg]
  | next {l : List ChatMsg} (e : Event) (h : ReachableSafe uuid l)
      (hni : ¬ interrupts l e) : ReachableSafe uuid (step uuid l e)

/-- The inductive invariant behind the single-streaming-bubble property:
every message before the last is non-streaming, and every streaming
message is a Bot message. -/
def Inv (l : List ChatMsg) : Prop :=
  (∀ m ∈ l.dropLast, m.streaming = false) ∧
  (∀ m ∈ l, m.streaming = true → m.user = ChatUser.Bot)

/-! ## Helper lemmas about the reducer's branches -/

theorem lastIsStreamingBot_concat (l : List ChatMsg) (m : ChatMsg) :
    lastIsStreamingBot (l ++ [m]) = (m.user == ChatUser.Bot && m.streaming) := by
  simp [lastIsStreamingBot, List.getLast?_concat]

theorem lastIsStreamingBot_true_iff (l : List ChatMsg) :
    lastIsStreamingBot l = true ↔
      ∃ last, l.getLast? = some last ∧ last.user = ChatUser.Bot ∧ last.streaming = true := by
  unfold lastIsStreamingBot
  cases hE : l.getLast? <;> simp

theorem applyStreamChunk_idle (prev : List ChatMsg) (c : String)
    (h : lastIsStreamingBot prev = false) :
    applyStreamChunk prev c = prev ++ [⟨ChatUser.Bot, c, true⟩] := by
  unfold lastIsStreamingBot at h
  unfold applyStreamChunk
  cases hE : prev.getLast? with
  | none => rfl
  | some last =>
      rw [hE] at h
      have h2 : (last.user == ChatUser.Bot && last.streaming) = false := h
      simp [h2]

theorem applyStreamChunk_streaming (prev : List ChatMsg) (c : String) (last : ChatMsg)
    (hE : prev.getLast? = some last) (hU : last.user = ChatUser.Bot)
    (hS : last.streaming = true) :
    applyStreamChunk prev c = prev.dropLast ++ [{ last with msg := last.msg ++ c }] := by
  unfold applyStreamChunk
  rw [hE]
  simp [hU, hS]

theorem applyEndOfTurn_idle (prev : List ChatMsg)
    (h : lastIsStreamingBot prev = false) : applyEndOfTurn prev = prev := by
  unfold lastIsStreamingBot at h
  unfold applyEndOfTurn
  cases hE : prev.getLast? with
  | none => rfl
  | some last =>
      rw [hE] at h
      have h2 : (last.user == ChatUser.Bot && last.streaming) = false := h
      simp [h2]

theorem applyEndOfTurn_streaming (prev : List ChatMsg) (last : ChatMsg)
    (hE : prev.getLast? = some last) (hU : last.user = ChatUser.Bot)
    (hS : last.streaming = true) :
    applyEndOfTurn prev = prev.dropLast ++ [{ last with streaming := false }] := by
  unfold applyEndOfTurn
  rw [hE]
  simp [hU, hS]

theorem mem_dropLast_or_getLast {α : Type} {m : α} {l : List α} (h : m ∈ l) :
    m ∈ l.dropLast ∨ l.getLast? = some m := by
  induction l using List.reverseRecOn with
  | nil => cases h
  | append_singleton l' a _ =>
      rcases List.mem_append.mp h with h' | h'
      · left
        rw [List.dropLast_concat]
        exact h'
      · right
        rw [List.getLast?_concat]
        simp_all

/-! ## Invariant preservation -/

theorem inv_all_not_streaming {l : List ChatMsg} (hInv : Inv l)
    (hT : tailStreaming l = false) : ∀ m ∈ l, m.streaming = false := by
  intro m hm
  rcases mem_dropLast_or_getLast hm with h | h
  · exact hInv.1 m h
  · unfold tailStreaming at hT
    rw [h] at hT
    exact hT

theorem inv_all_not_streaming_of_idle {l : List ChatMsg} (hInv : Inv l)
    (hB : lastIsStreamingBot l = false) : ∀ m ∈ l, m.streaming = false := by
  intro m hm
  rcases mem_dropLast_or_getLast hm with h | h
  · exact hInv.1 m h
  · cases hms : m.streaming with
    | false => rfl
    | true =>
        have hU := hInv.2 m hm hms
        have : lastIsStreamingBot l = true :=
          (lastIsStreamingBot_true_iff l).mpr ⟨m, h, hU, hms⟩
        rw [this] at hB
        cases hB

theorem inv_append {l : List ChatMsg} {m : ChatMsg}
    (hAll : ∀ x ∈ l, x.streaming = false)
    (hM : m.streaming = true → m.user = ChatUser.Bot) : Inv (l ++ [m]) := by
  constructor
  · intro x hx
    rw [List.dropLast_concat] at hx
    exact hAll x hx
  · intro x hx hs
    rcases List.mem_append.mp hx with h | h
    · rw [hAll x h] at hs
      cases hs
    · have hxm : x = m := by simpa using h
      subst hxm
      exact hM hs

theorem inv_mutate {l : List ChatMsg} {m : ChatMsg} (hInv : Inv l)
    (hM : m.streaming = true → m.user = ChatUser.Bot) : Inv (l.dropLast ++ [m]) := by
  constructor
  · intro x hx
    rw [List.dropLast_concat] at hx
    exact hInv.1 x hx
  · intro x hx hs
    rcases List.mem_append.mp hx with h | h
    · rw [hInv.1 x h] at hs
      cases hs
    · have hxm : x = m := by simpa using h
      subst hxm
      exact hM hs

theorem streamingCount_le_one_of_inv {l : List ChatMsg} (hInv : Inv l) :
    streamingCount l ≤ 1 := by
  unfold streamingCount
  induction l using List.reverseRecOn with
  | nil => simp
  | append_singleton l' a _ =>
      have h1 : l'.filter (fun m => m.streaming) = [] := by
        apply List.filter_eq_nil_iff.mpr
        intro m hm
        have := hInv.1 m (by rw [List.dropLast_concat]; exact hm)
        simp [this]
      rw [List.filter_append, h1]
      cases ha : a.streaming <;> simp [List.filter, ha]

theorem sendMessage_fst (uuid : String) (ws : Option ReadyState) (prev : List ChatMsg)
    (text : String) :
    (sendMessage uuid ws prev text).1 = prev ∨
    (sendMessage uuid ws prev text).1 =
      prev ++ [⟨ChatUser.User, jsTrim text, false⟩] := by
  simp only [sendMessage]
  split_ifs <;> simp

theorem inv_seed : Inv [seedMsg] := by
  constructor
  · intro m hm
    cases hm
  · intro m hm hs
    rcases List.mem_singleton.mp hm with rfl
    rfl

theorem inv_step (uuid : String) (l : List ChatMsg) (e : Event)
    (hInv : Inv l) (hni : ¬ interrupts l e) : Inv (step uuid l e) := by
  cases e with
  | submit ws text =>
      have hT : tailStreaming l = false := by
        cases h : tailStreaming l with
        | false => rfl
        | true => exact absurd ⟨h, trivial⟩ hni
      rcases sendMessage_fst uuid ws l text with h1 | h1
      · show Inv (sendMessage uuid ws l text).1
        rw [h1]
        exact hInv
      · show Inv (sendMessage uuid ws l text).1
        rw [h1]
        exact inv_append (inv_all_not_streaming hInv hT) (by intro hc; cases hc)
  | reset => exact inv_seed
  | frame f =>
      cases f with
      | binary => exact hInv
      | badJson raw =>
          have hT : tailStreaming l = false := by
            cases h : tailStreaming l with
            | false => rfl
            | true => exact absurd ⟨h, trivial⟩ hni
          exact inv_append (inv_all_not_streaming hInv hT) (by intro hc; cases hc)
      | parsed j =>
          show Inv (handleFrame l (Inbound.parsed j))
          cases hF : jsObjFields j with
          | none =>
              have hstep : handleFrame l (Inbound.parsed j) = l := by
                simp [handleFrame, hF]
              rw [hstep]
              exact hInv
          | some fields =>
              have hstep0 : handleFrame l (Inbound.parsed j) = handleObjFrame l fields := by
                simp [handleFrame, hF]
              rw [hstep0]
              cases hS : streamChunkOf fields with
              | some chunk =>
                  have hstep : handleObjFrame l fields = applyStreamChunk l chunk := by
                    simp [handleObjFrame, hS]
                  rw [hstep]
                  cases hB : lastIsStreamingBot l with
                  | false =>
                      rw [applyStreamChunk_idle l chunk hB]
                      exact inv_append (inv_all_not_streaming_of_idle hInv hB)
                        (fun _ => rfl)
                  | true =>
                      obtain ⟨last, hE, hU, hSt⟩ := (lastIsStreamingBot_true_iff l).mp hB
                      rw [applyStreamChunk_streaming l chunk last hE hU hSt]
                      exact inv_mutate hInv (by intro _; simpa using hU)
              | none =>
                  cases hEnd : isEndOfTurn fields with
                  | true =>
                      have hstep : handleObjFrame l fields = applyEndOfTurn l := by
                        simp [handleObjFrame, hS, hEnd]
                      rw [hstep]
                      cases hB : lastIsStreamingBot l with
                      | false =>
                          rw [applyEndOfTurn_idle l hB]
                          exact hInv
                      | true =>
                          obtain ⟨last, hE, hU, hSt⟩ := (lastIsStreamingBot_true_iff l).mp hB
                          rw [applyEndOfTurn_streaming l last hE hU hSt]
                          exact inv_mutate hInv (by intro hc; cases hc)
                  | false =>
                      cases hK : payloadKeys fields with
                      | nil =>
                          have hstep : handleObjFrame l fields = l := by
                            simp [handleObjFrame, hS, hEnd, hK]
                          rw [hstep]
                          exact hInv
                      | cons k rest =>
                          have hT : tailStreaming l = false := by
                            cases h : tailStreaming l with
                            | false => rfl
                            | true =>
                                have hA : appendsOutOfBand (Event.frame (Inbound.parsed j)) := by
                                  simp only [appendsOutOfBand, hF]
                                  exact ⟨hS, hEnd, by simp [hK]⟩
                                exact absurd ⟨h, hA⟩ hni
                          have hstep : handleObjFrame l fields =
                              l ++ [⟨ChatUser.Bot,
                                "🔔 " ++ k ++ ": " ++
                                  serialize ((fields.lookup k).getD Json.null), false⟩] := by
                            simp [handleObjFrame, hS, hEnd, hK]
                          rw [hstep]
                          exact inv_append (inv_all_not_streaming hInv hT)
                            (by intro hc; cases hc)

theorem inv_of_reachableSafe {uuid : String} {l : List ChatMsg}
    (h : ReachableSafe uuid l) : Inv l := by
  induction h with
  | seed => exact inv_seed
  | next e h hni ih => exact inv_step _ _ e ih hni

/-! ## The claims -/

/-- C1, counterexample: the claimed invariant fails on an unrestricted
event sequence.  From the seed, fragment "A", then the generic signal
`\x7b"other":1\x7d`, then fragment "B" reach a list with two messages
flagged `streaming = true`: the interrupted "A" bubble keeps its flag and
a second streaming bubble "B" is opened. -/
theorem C1_counterexample :
    ¬ streamingCount (run "" [Event.frame (fragFrame "A"),
        Event.frame (Inbound.parsed (Json.obj [("other", Json.num 1)])),
        Event.frame (fragFrame "B")]) ≤ 1 := by decide

/-- C1 (amended): at most one message in the list has `streaming = true`
in every state reachable from the seed, provided no user submit,
plain-text fallback, or generic signal event is processed while a
streaming bubble is open; an event sequence violating that proviso can
leave stale `streaming = true` flags behind. -/
theorem C1_amended_single_streaming (uuid : String) (l : List ChatMsg)
    (h : ReachableSafe uuid l) : streamingCount l ≤ 1 :=
  streamingCount_le_one_of_inv (inv_of_reachableSafe h)

/-- C1, witness: the amended invariant applied to one concrete reachable
state, the seed after fragment "Hi". -/
theorem C1_amended_single_streaming_witness :
    streamingCount (step "" [seedMsg] (Event.frame (fragFrame "Hi"))) ≤ 1 :=
  C1_amended_single_streaming "" _
    (ReachableSafe.next _ ReachableSafe.seed (fun hc => absurd hc.1 (by decide)))

/-- C3: Scenario A — from the seed list, fragment "Hi", fragment
" there", then the turn-completion signal yield the seed followed by
exactly one new message `\x7bBot, "Hi there", streaming:false\x7d`. -/
theorem C3_scenario_A :
    handleFrame (handleFrame (handleFrame [seedMsg] (fragFrame "Hi"))
        (fragFrame " there")) endFrame
      = [seedMsg, ⟨ChatUser.Bot, "Hi there", false⟩] := by decide

/-- C5: a text frame that fails JSON parsing appends exactly one
non-streaming Bot message carrying the raw frame text verbatim, whatever
the prior list — in particular it is never dropped, streaming bubble open
or not. -/
theorem C5_plain_text_fallback (prev : List ChatMsg) (raw : String) :
    handleFrame prev (Inbound.badJson raw) =
      prev ++ [⟨ChatUser.Bot, raw, false⟩] := rfl

/-- C9: a fragment event carrying the empty string leaves every prior
list unchanged; in particular two consecutive empty-string fragments
never change the list. -/
theorem C9_empty_fragment_noop (prev : List ChatMsg) :
    handleFrame prev (fragFrame "") = prev ∧
    handleFrame (handleFrame prev (fragFrame "")) (fragFrame "") = prev :=
  ⟨rfl, rfl⟩

/-- C2, counterexample: with a prior list already ending in an open
streaming Bot bubble, fragment "A" is merged into that bubble instead of
being appended, so the sequence fragment "A" / signal / fragment "B" does
not append the three claimed messages. -/
theorem C2_counterexample :
    handleFrame (handleFrame (handleFrame [(⟨ChatUser.Bot, "X", true⟩ : ChatMsg)]
          (fragFrame "A"))
        (Inbound.parsed (Json.obj [("other", Json.num 1)]))) (fragFrame "B")
      = [⟨ChatUser.Bot, "XA", true⟩, ⟨ChatUser.Bot, "🔔 other: 1", false⟩,
         ⟨ChatUser.Bot, "B", true⟩] ∧
    handleFrame (handleFrame (handleFrame [(⟨ChatUser.Bot, "X", true⟩ : ChatMsg)]
          (fragFrame "A"))
        (Inbound.parsed (Json.obj [("other", Json.num 1)]))) (fragFrame "B")
      ≠ [⟨ChatUser.Bot, "X", true⟩] ++
        [⟨ChatUser.Bot, "A", true⟩, ⟨ChatUser.Bot, "🔔 other: 1", false⟩,
         ⟨ChatUser.Bot, "B", true⟩] := by
  exact ⟨by decide, by decide⟩

/-- C2 (amended): for every prior list whose trailing message is not an
open streaming Bot bubble, processing fragment "A", then the generic
signal `\x7b"other":1\x7d`, then fragment "B" appends exactly three
messages — the streaming Bot bubble "A", the non-streaming signal
message, and a second new streaming Bot bubble "B" (not concatenated
onto "A"). -/
theorem C2_amended_signal_interrupts (prev : List ChatMsg)
    (h : lastIsStreamingBot prev = false) :
    handleFrame (handleFrame (handleFrame prev (fragFrame "A"))
        (Inbound.parsed (Json.obj [("other", Json.num 1)]))) (fragFrame "B")
      = prev ++ [⟨ChatUser.Bot, "A", true⟩,
                 ⟨ChatUser.Bot, "🔔 other: 1", false⟩,
                 ⟨ChatUser.Bot, "B", true⟩] := by
  have e1 : handleFrame prev (fragFrame "A") = applyStreamChunk prev "A" := rfl
  have e2 : ∀ l : List ChatMsg,
      handleFrame l (Inbound.parsed (Json.obj [("other", Json.num 1)])) =
        l ++ [⟨ChatUser.Bot, "🔔 other: 1", false⟩] := fun l => rfl
  have e3 : ∀ l : List ChatMsg,
      handleFrame l (fragFrame "B") = applyStreamChunk l "B" := fun l => rfl
  rw [e1, applyStreamChunk_idle prev "A" h, e2, e3,
      applyStreamChunk_idle _ "B" (by rw [lastIsStreamingBot_concat]; rfl)]
  simp

/-- C2, witness: the amended statement at the singleton seed list, which
has no open streaming bubble. -/
theorem C2_amended_signal_interrupts_witness :
    handleFrame (handleFrame (handleFrame [seedMsg] (fragFrame "A"))
        (Inbound.parsed (Json.obj [("other", Json.num 1)]))) (fragFrame "B")
      = [seedMsg] ++ [⟨ChatUser.Bot, "A", true⟩,
                 ⟨ChatUser.Bot, "🔔 other: 1", false⟩,
                 ⟨ChatUser.Bot, "B", true⟩] :=
  C2_amended_signal_interrupts [seedMsg] (by decide)

/-- C6, counterexample: a decoded object frame can have a non-empty
filtered key list and still not append a signal message — when it also
carries a non-empty `on_chat_model_stream` string the stream-chunk path
fires first. -/
theorem C6_counterexample :
    payloadKeys [("on_chat_model_stream", Json.str "hi"), ("x", Json.num 1)] = ["x"] ∧
    handleFrame [] (Inbound.parsed
        (Json.obj [("on_chat_model_stream", Json.str "hi"), ("x", Json.num 1)]))
      = [⟨ChatUser.Bot, "hi", true⟩] ∧
    handleFrame [] (Inbound.parsed
        (Json.obj [("on_chat_model_stream", Json.str "hi"), ("x", Json.num 1)]))
      ≠ [⟨ChatUser.Bot, "🔔 x: 1", false⟩] := by
  exact ⟨by decide, by decide, by decide⟩

/-- C6 (amended): a decoded object frame whose filtered keys are
non-empty appends exactly one non-streaming Bot message rendering the
first such key and the JSON serialization of its value, provided the
frame fires neither the stream-chunk path (no non-empty
`on_chat_model_stream` string) nor the end-of-turn path (no
`on_chat_model_end: true`). -/
theorem C6_amended_generic_signal (prev : List ChatMsg)
    (fields : List (String × Json)) (k : String)
    (h1 : streamChunkOf fields = none) (h2 : isEndOfTurn fields = false)
    (h3 : (payloadKeys fields).head? = some k) :
    handleFrame prev (Inbound.parsed (Json.obj fields)) =
      prev ++ [⟨ChatUser.Bot,
                "🔔 " ++ k ++ ": " ++ serialize ((fields.lookup k).getD Json.null),
                false⟩] := by
  cases hK : payloadKeys fields with
  | nil =>
      rw [hK] at h3
      cases h3
  | cons k2 rest =>
      rw [hK] at h3
      have hk2 : k2 = k := by simpa using h3
      subst hk2
      simp [handleFrame, jsObjFields, handleObjFrame, h1, h2, hK]

/-- C6, witness: Scenario B — `\x7b"custom_event":\x7b"x":1\x7d\x7d`
received on the seed list appends
`\x7bBot, "🔔 custom_event: \x7b\"x\":1\x7d", false\x7d`. -/
theorem C6_amended_generic_signal_witness :
    handleFrame [seedMsg] (Inbound.parsed
        (Json.obj [("custom_event", Json.obj [("x", Json.num 1)])]))
      = [seedMsg, ⟨ChatUser.Bot, "🔔 custom_event: \x7b\"x\":1\x7d", false⟩] :=
  C6_amended_generic_signal [seedMsg]
    [("custom_event", Json.obj [("x", Json.num 1)])] "custom_event" rfl rfl rfl

theorem all_of_dropWhile_all {α : Type} (p : α → Bool) :
    ∀ L : List α, (∀ x ∈ L.dropWhile p, p x = true) → ∀ x ∈ L, p x = true := by
  intro L
  induction L with
  | nil => intro _ x hx; cases hx
  | cons c cs ih =>
      intro hAll x hx
      by_cases hc : p c = true
      · have hd : (c :: cs).dropWhile p = cs.dropWhile p := by
          simp [List.dropWhile_cons, hc]
        rw [hd] at hAll
        rcases List.mem_cons.mp hx with rfl | hx2
        · exact hc
        · exact ih hAll x hx2
      · have hd : (c :: cs).dropWhile p = c :: cs := by
          simp [List.dropWhile_cons, hc]
        rw [hd] at hAll
        exact hAll x hx

theorem jsTrim_empty_of_all (text : String)
    (h : text.toList.all isJsWhitespace = true) : jsTrim text = "" := by
  have hall : ∀ c ∈ text.toList, isJsWhitespace c = true := List.all_eq_true.mp h
  have hd : text.toList.dropWhile isJsWhitespace = [] :=
    List.dropWhile_eq_nil_iff.mpr hall
  unfold jsTrim
  rw [hd]
  rfl

theorem all_of_jsTrim_empty (text : String) (hEq : jsTrim text = "") :
    text.toList.all isJsWhitespace = true := by
  have hdata : ((text.toList.dropWhile isJsWhitespace).reverse.dropWhile
      isJsWhitespace).reverse = [] := by
    have h := congrArg String.data hEq
    simpa [jsTrim] using h
  have h2 : (text.toList.dropWhile isJsWhitespace).reverse.dropWhile isJsWhitespace
      = [] := by
    simpa using hdata
  have h3 : ∀ x ∈ (text.toList.dropWhile isJsWhitespace).reverse,
      isJsWhitespace x = true := List.dropWhile_eq_nil_iff.mp h2
  have h4 : ∀ x ∈ text.toList.dropWhile isJsWhitespace, isJsWhitespace x = true := by
    intro x hx
    exact h3 x (List.mem_reverse.mpr hx)
  exact List.all_eq_true.mpr (all_of_dropWhile_all isJsWhitespace text.toList h4)

/-- C7: with a null socket handle or any non-`OPEN` ready state, `send`
is a silent no-op for every input text — nothing is appended and no frame
is transmitted. -/
theorem C7_send_not_open_noop (uuid : String) (ws : Option ReadyState)
    (prev : List ChatMsg) (text : String) (h : ws ≠ some ReadyState.OPEN) :
    sendMessage uuid ws prev text = (prev, none) := by
  by_cases h1 : jsTrim text = ""
  · simp [sendMessage, h1]
  · simp [sendMessage, h1, h]

/-- C7, witness: sending "hello" on a null socket handle changes nothing
and transmits nothing. -/
theorem C7_send_not_open_noop_witness :
    sendMessage "u" none [seedMsg] "hello" = ([seedMsg], none) :=
  C7_send_not_open_noop "u" none [seedMsg] "hello" (by decide)

/-- C8: a submitted text consisting only of whitespace (or empty) is
rejected silently in every connection state: the list is unchanged and no
frame is transmitted. -/
theorem C8_whitespace_submit_rejected (uuid : String) (ws : Option ReadyState)
    (prev : List ChatMsg) (text : String)
    (h : text.toList.all isJsWhitespace = true) :
    sendMessage uuid ws prev text = (prev, none) := by
  have ht : jsTrim text = "" := jsTrim_empty_of_all text h
  simp [sendMessage, ht]

/-- C8, witness: submitting three spaces on an open socket is a no-op. -/
theorem C8_whitespace_submit_rejected_witness :
    sendMessage "u" (some ReadyState.OPEN) [seedMsg] "   " = ([seedMsg], none) :=
  C8_whitespace_submit_rejected "u" (some ReadyState.OPEN) [seedMsg] "   " (by decide)

/-- C10: a submit on an open socket whose text has at least one
non-whitespace character appends the whitespace-trimmed text as the User
message and transmits a frame whose `message` field is that same trimmed
text — not the text verbatim. -/
theorem C10_send_transmits_trimmed (uuid : String) (prev : List ChatMsg)
    (text : String) (h : ¬ text.toList.all isJsWhitespace = true) :
    sendMessage uuid (some ReadyState.OPEN) prev text =
      (prev ++ [⟨ChatUser.User, jsTrim text, false⟩],
       some (Json.obj [("uuid", Json.str uuid), ("message", Json.str (jsTrim text))])) ∧
    ([("uuid", Json.str uuid), ("message", Json.str (jsTrim text))]).lookup "message"
      = some (Json.str (jsTrim text)) := by
  have hne : jsTrim text ≠ "" := fun hEq => h (all_of_jsTrim_empty text hEq)
  constructor
  · simp [sendMessage, hne]
  · rfl

/-- C10, witness: the padded text "  hi  " is appended and transmitted as
"hi". -/
theorem C10_send_transmits_trimmed_witness :
    sendMessage "u" (some ReadyState.OPEN) [seedMsg] "  hi  " =
      ([seedMsg] ++ [⟨ChatUser.User, jsTrim "  hi  ", false⟩],
       some (Json.obj [("uuid", Json.str "u"),
                       ("message", Json.str (jsTrim "  hi  "))])) ∧
    ([("uuid", Json.str "u"), ("message", Json.str (jsTrim "  hi  "))]).lookup "message"
      = some (Json.str (jsTrim "  hi  ")) :=
  C10_send_transmits_trimmed "u" [seedMsg] "  hi  " (by decide)

theorem getElem?_of_shape (prev l2 : List ChatMsg)
    (h : (∃ t, l2 = prev ++ t) ∨ ∃ m2, l2 = prev.dropLast ++ [m2]) :
    ∀ i, i + 1 < prev.length → l2[i]? = prev[i]? := by
  intro i hi
  rcases h with ⟨t, rfl⟩ | ⟨m2, rfl⟩
  · rw [List.getElem?_append, if_pos (by omega)]
  · have hlen : i < prev.dropLast.length := by
      rw [List.length_dropLast]
      omega
    rw [List.getElem?_append, if_pos hlen, List.dropLast_eq_take,
        List.getElem?_take, if_pos (by omega)]

theorem step_shape (uuid : String) (prev : List ChatMsg) (e : Event)
    (h : e ≠ Event.reset) :
    (∃ t, step uuid prev e = prev ++ t) ∨
    (∃ last m2, prev.getLast? = some last ∧ last.streaming = true ∧
       step uuid prev e = prev.dropLast ++ [m2]) := by
  cases e with
  | reset => exact absurd rfl h
  | submit ws text =>
      rcases sendMessage_fst uuid ws prev text with h1 | h1
      · exact Or.inl ⟨[], by simpa [step] using h1⟩
      · exact Or.inl ⟨[⟨ChatUser.User, jsTrim text, false⟩], by simpa [step] using h1⟩
  | frame f =>
      cases f with
      | binary => exact Or.inl ⟨[], by simp [step, handleFrame]⟩
      | badJson raw =>
          exact Or.inl ⟨[⟨ChatUser.Bot, raw, false⟩], by simp [step, handleFrame]⟩
      | parsed j =>
          cases hF : jsObjFields j with
          | none => exact Or.inl ⟨[], by simp [step, handleFrame, hF]⟩
          | some fields =>
              have hstep0 : step uuid prev (Event.frame (Inbound.parsed j)) =
                  handleObjFrame prev fields := by
                simp [step, handleFrame, hF]
              rw [hstep0]
              cases hS : streamChunkOf fields with
              | some chunk =>
                  cases hB : lastIsStreamingBot prev with
                  | false =>
                      refine Or.inl ⟨[⟨ChatUser.Bot, chunk, true⟩], ?_⟩
                      simp [handleObjFrame, hS, applyStreamChunk_idle prev chunk hB]
                  | true =>
                      obtain ⟨last, hE, hU, hSt⟩ := (lastIsStreamingBot_true_iff prev).mp hB
                      refine Or.inr ⟨last, { last with msg := last.msg ++ chunk },
                        hE, hSt, ?_⟩
                      simp [handleObjFrame, hS,
                        applyStreamChunk_streaming prev chunk last hE hU hSt]
              | none =>
                  cases hEnd : isEndOfTurn fields with
                  | true =>
                      cases hB : lastIsStreamingBot prev with
                      | false =>
                          refine Or.inl ⟨[], ?_⟩
                          simp [handleObjFrame, hS, hEnd, applyEndOfTurn_idle prev hB]
                      | true =>
                          obtain ⟨last, hE, hU, hSt⟩ :=
                            (lastIsStreamingBot_true_iff prev).mp hB
                          refine Or.inr ⟨last, { last with streaming := false },
                            hE, hSt, ?_⟩
                          simp [handleObjFrame, hS, hEnd,
                            applyEndOfTurn_streaming prev last hE hU hSt]
                  | false =>
                      cases hK : payloadKeys fields with
                      | nil => exact Or.inl ⟨[], by simp [handleObjFrame, hS, hEnd, hK]⟩
                      | cons k rest =>
                          refine Or.inl ⟨[⟨ChatUser.Bot,
                            "🔔 " ++ k ++ ": " ++
                              serialize ((fields.lookup k).getD Json.null), false⟩], ?_⟩
                          simp [handleObjFrame, hS, hEnd, hK]

/-- C4: every single event step other than reset extends the prior list
append-only, except that the trailing message may be replaced in place,
and such an in-place replacement happens only when the trailing message
is streaming; every message other than the last is unchanged. -/
theorem C4_append_only_frame (uuid : String) (prev : List ChatMsg) (e : Event)
    (h : e ≠ Event.reset) :
    (∀ i, i + 1 < prev.length → (step uuid prev e)[i]? = prev[i]?) ∧
    ((∃ t, step uuid prev e = prev ++ t) ∨
     (∃ last m2, prev.getLast? = some last ∧ last.streaming = true ∧
        step uuid prev e = prev.dropLast ++ [m2])) := by
  have hs := step_shape uuid prev e h
  refine ⟨?_, hs⟩
  apply getElem?_of_shape
  rcases hs with ⟨t, ht⟩ | ⟨last, m2, _, _, hm⟩
  · exact Or.inl ⟨t, ht⟩
  · exact Or.inr ⟨m2, hm⟩

/-- C4, witness: the frame condition at the seed list under a plain-text
fallback frame. -/
theorem C4_append_only_frame_witness :
    (∀ i, i + 1 < ([seedMsg] : List ChatMsg).length →
       (step "" [seedMsg] (Event.frame (Inbound.badJson "oops")))[i]? =
         ([seedMsg] : List ChatMsg)[i]?) ∧
    ((∃ t, step "" [seedMsg] (Event.frame (Inbound.badJson "oops")) = [seedMsg] ++ t) ∨
     (∃ last m2, ([seedMsg] : List ChatMsg).getLast? = some last ∧
        last.streaming = true ∧
        step "" [seedMsg] (Event.frame (Inbound.badJson "oops")) =
          ([seedMsg] : List ChatMsg).dropLast ++ [m2])) :=
  C4_append_only_frame "" [seedMsg] (Event.frame (Inbound.badJson "oops"))
    (fun hc => Event.noConfusion hc)

end LangGraphReact
